import Mathlib

/-!
Verification of the core logic of the ot-stem-capture repository: the MIDI
event-timeline recorder and playback scheduler (`src/core/midi_handler.py`),
the session timing derivation (`src/core/session.py`) and the
channel-extraction / level metering code (`src/core/audio_handler.py`),
shallowly embedded in Lean.  Timestamps and durations are modelled as exact
rationals, audio samples as reals, MIDI messages as lists of naturals
(byte values).
-/

namespace OTStemCapture

/-- A timestamped MIDI event, mirroring the `MIDIEvent` dataclass of
`midi_handler.py`: a timestamp in seconds from session start, a 0-indexed
channel and the raw MIDI message bytes. -/
structure MIDIEvent where
  timestamp : ℚ
  channel : ℕ
  message : List ℕ
deriving DecidableEq, Repr

/-! ## Isolation-pass event filtering (`MIDIHandler._should_filter_event`) -/

/-- `MIDIHandler._should_filter_event`: during isolated playback an event is
filtered exactly when it is a CC message (status high nibble `0xB0`) of at
least three bytes whose controller number is 49 (track mute) and whose
1-indexed channel differs from the solo track. -/
def should_filter_event (e : MIDIEvent) (solo_track : ℕ) : Bool :=
  let message := e.message
  if message.length < 3 then false
  else
    let status := message.headD 0
    let cc_num := message.getD 1 0
    if status &&& 0xF0 ≠ 0xB0 then false
    else
      let channel := (status &&& 0x0F) + 1
      if cc_num = 49 then decide (channel ≠ solo_track) else false

/-- The events the replay loop of `MIDIHandler._playback_loop` forwards to the
device during an isolation pass: every timeline event that
`_should_filter_event` does not filter (program-change events are forwarded
early, all other unfiltered events at their recorded time; either way their
bytes are forwarded unchanged). -/
def isolation_forwarded (events : List MIDIEvent) (solo_track : ℕ) : List MIDIEvent :=
  events.filter (fun e => !should_filter_event e solo_track)

/-! ## Stereo-pair extraction (`AudioHandler._extract_stereo`) -/

/-- `AudioHandler._extract_stereo`: `samples` is the captured block as a list
of frames (rows), `channels` the number of available channels
(`samples.shape[1]`), `offset` the 0-indexed first channel of the requested
pair.  Three branches: both channels available, only the first available
(duplicated), none available (silence of the same frame count). -/
def extract_stereo (samples : List (List ℝ)) (channels : ℕ) (offset : ℕ) :
    List (List ℝ) :=
  if offset + 1 < channels then
    samples.map (fun frame => [frame.getD offset 0, frame.getD (offset + 1) 0])
  else if offset < channels then
    samples.map (fun frame => [frame.getD offset 0, frame.getD offset 0])
  else
    samples.map (fun _ => [0, 0])

/-! ## Jam-pass timing derivation (`Session.stop_jam_recording`) -/

/-- The timing derivation of `Session.stop_jam_recording` (lines 90-112):
from the captured MIDI transport-start timestamp `midi_start`, the captured
transport-stop timestamp `midi_stop`, the total capture duration
`total_duration` and the audio-onset fallback `sound_onset`, derive
`(ot_start_offset, ot_content_duration)`. -/
def stop_jam_derive (midi_start midi_stop total_duration sound_onset : ℚ) :
    ℚ × ℚ :=
  let ot_start_offset := if 0 < midi_start then midi_start else sound_onset
  let ot_content_duration :=
    if midi_start < midi_stop then midi_stop - midi_start
    else total_duration - ot_start_offset
  (ot_start_offset, ot_content_duration)

/-! ## No-output-port behaviour (`start_playback` / `capture_stem`) -/

/-- Observable outcome of a call to `MIDIHandler.start_playback`: whether the
completion callback fired during the call, whether a playback thread was
started, and how many MIDI messages the call itself sent. -/
structure StartPlaybackResult where
  complete_called : Bool
  thread_started : Bool
  messages_sent : ℕ
deriving DecidableEq, Repr

/-- The port-availability branch of `MIDIHandler.start_playback` (lines
192-204): with no output port open it invokes `on_complete` (when provided)
and returns; otherwise it starts the playback thread.  The call itself sends
no MIDI message on either path. -/
def start_playback (has_midi_out : Bool) (has_on_complete : Bool) :
    StartPlaybackResult :=
  if !has_midi_out then
    { complete_called := has_on_complete, thread_started := false,
      messages_sent := 0 }
  else
    { complete_called := false, thread_started := true, messages_sent := 0 }

/-- The result structure of `Session.capture_stem` (lines 145-192): `False`
immediately when no MIDI output port is open, `False` when audio recording
fails to start, otherwise the result of saving the stem file. -/
def capture_stem (has_midi_out : Bool) (audio_start_ok : Bool)
    (save_ok : Bool) : Bool :=
  if !has_midi_out then false
  else if !audio_start_ok then false
  else save_ok

/-! ## Track activity (`_midi_callback` / `get_track_activity`) -/

/-- The channel `MIDIHandler._midi_callback` stores with an incoming message
(lines 109-114): the low nibble of the status byte for channel messages
(status < `0xF0`), and 0 for system messages. -/
def callback_channel (message : List ℕ) : ℕ :=
  let status := message.headD 0
  if status < 0xF0 then status &&& 0x0F else 0

/-- The event `_midi_callback` appends to the timeline for an incoming
message. -/
def record_event (timestamp : ℚ) (message : List ℕ) : MIDIEvent :=
  { timestamp := timestamp, channel := callback_channel message,
    message := message }

/-- One iteration of the loop of `MIDIHandler.get_track_activity`: an event
whose stored channel is below 8 marks track `channel + 1` active. -/
def track_activity_update (activity : ℕ → Bool) (e : MIDIEvent) : ℕ → Bool :=
  if e.channel < 8 then
    fun t => if t = e.channel + 1 then true else activity t
  else activity

/-- `MIDIHandler.get_track_activity`: start from all of tracks 1-8 inactive
and fold the update over the recorded events. -/
def get_track_activity (events : List MIDIEvent) : ℕ → Bool :=
  events.foldl track_activity_update (fun _ => false)

/-! ## Post-loop choreography of `_playback_loop` (lines 357-391) -/

/-- The externally observable steps `_playback_loop` can take after the
replay loop exits. -/
inductive PlayAction where
  | send_ot_stop : PlayAction
  | sleep_tail : PlayAction
  | sleep_stereo : PlayAction
  | call_complete : PlayAction
  | unmute_all : PlayAction
deriving DecidableEq, Repr

/-- The ordered actions `_playback_loop` performs after the replay loop
exits (lines 357-391): the device stop trigger unconditionally; the
tail-time sleep if `tail_time > 0` and the stop flag is clear; the
stereo-duration matching sleep if `stereo_duration > 0`, the ready signal
fired (`audio_start_time` set), the stop flag is clear and time remains;
the completion callback if provided and the stop flag is clear; and, when
isolating, the double-tap stop plus unmute-all.  `stop_requested` is the
state of the `_stop_playback` flag while this epilogue runs. -/
def playback_finish (stop_requested : Bool) (tail_time stereo_duration : ℚ)
    (sound_started : Bool) (elapsed : ℚ) (has_on_complete : Bool)
    (isolated : Bool) : List PlayAction :=
  [PlayAction.send_ot_stop]
    ++ (if 0 < tail_time ∧ stop_requested = false then [PlayAction.sleep_tail]
        else [])
    ++ (if 0 < stereo_duration ∧ sound_started = true ∧ stop_requested = false then
          if elapsed < stereo_duration then [PlayAction.sleep_stereo] else []
        else [])
    ++ (if has_on_complete = true ∧ stop_requested = false then
          [PlayAction.call_complete]
        else [])
    ++ (if isolated = true then
          [PlayAction.send_ot_stop, PlayAction.send_ot_stop, PlayAction.unmute_all]
        else [])

/-! ## Program-change lead times (`_calculate_pc_lead_times`) -/

/-- The program-change test of `_calculate_pc_lead_times` (line 476): the
message has at least one byte and its status high nibble is `0xC0`. -/
def is_pc_message (message : List ℕ) : Bool :=
  decide (1 ≤ message.length) && decide (message.headD 0 &&& 0xF0 = 0xC0)

/-- The `(event index, timestamp)` pairs of the program-change events of a
timeline, in timeline order (lines 474-477). -/
def pc_events (events : List MIDIEvent) : List (ℕ × ℚ) :=
  (events.enum.filter (fun p => is_pc_message p.2.message)).map
    (fun p => (p.1, p.2.timestamp))

/-- The loop of `_calculate_pc_lead_times` (lines 483-501): walking the
program-change events with `prev_time` starting at 0 (start of recording),
each one's adjusted time is
`max (prev_time + 0.1) (pc_time - (pc_time - prev_time) * lead_fraction)`,
and `prev_time` becomes that event's original time. -/
def pc_lead_times (lead_fraction prev_time : ℚ) :
    List (ℕ × ℚ) → List (ℕ × ℚ)
  | [] => []
  | (event_idx, pc_time) :: rest =>
      let pattern_duration := pc_time - prev_time
      let lead_time := pattern_duration * lead_fraction
      let adjusted_time := max (prev_time + 1/10) (pc_time - lead_time)
      (event_idx, adjusted_time) :: pc_lead_times lead_fraction pc_time rest

/-- `MIDIHandler._calculate_pc_lead_times`: the adjusted send time of every
program-change event of the timeline, keyed by event index. -/
def calculate_pc_lead_times (events : List MIDIEvent)
    (lead_fraction : ℚ) : List (ℕ × ℚ) :=
  pc_lead_times lead_fraction 0 (pc_events events)

/-! ## Transport start/stop detection (`_midi_callback`, lines 117-134) -/

/-- The detection state held by the handler: `ot_start_offset` and
`ot_stop_time`, both 0 until captured. -/
structure TransportState where
  ot_start_offset : ℚ
  ot_stop_time : ℚ
deriving DecidableEq, Repr

/-- The start/stop branch of `MIDIHandler._midi_callback` (lines 117-134)
applied to one incoming event: a transport-start byte `0xFA` captures the
start when none is set; a transport-stop byte `0xFC` captures the stop when
a start is set and no stop is; a note-on (status high nibble `0x90`, any
channel) captures the start as fallback when none is set. -/
def transport_update (s : TransportState) (e : MIDIEvent) : TransportState :=
  let status := e.message.headD 0
  if status = 0xFA then
    if s.ot_start_offset = 0 then { s with ot_start_offset := e.timestamp }
    else s
  else if status = 0xFC then
    if 0 < s.ot_start_offset ∧ s.ot_stop_time = 0 then
      { s with ot_stop_time := e.timestamp }
    else s
  else if status &&& 0xF0 = 0x90 then
    if s.ot_start_offset = 0 then { s with ot_start_offset := e.timestamp }
    else s
  else s

/-- Folding the callback's start/stop detection over a recorded timeline,
from the reset state of `start_recording`. -/
def detect_transport (events : List MIDIEvent) : TransportState :=
  events.foldl transport_update { ot_start_offset := 0, ot_stop_time := 0 }

/-- An event the callback accepts as a start indicator: transport-start
`0xFA`, or a note-on on any channel. -/
def is_start_signal (e : MIDIEvent) : Bool :=
  decide (e.message.headD 0 = 0xFA) ||
    decide (e.message.headD 0 &&& 0xF0 = 0x90)

/-- An event the callback accepts as a stop indicator: transport-stop
`0xFC`. -/
def is_stop_signal (e : MIDIEvent) : Bool :=
  decide (e.message.headD 0 = 0xFC)

/-! ## Level metering (`AudioHandler._calc_db`, lines 121-124) -/

/-- The root-mean-square of a block of samples:
`np.sqrt(np.mean(data**2))`. -/
noncomputable def rms (data : List ℝ) : ℝ :=
  Real.sqrt ((data.map (fun x => x ^ 2)).sum / data.length)

/-- `AudioHandler._calc_db`: `20 * log10(max(rms, 1e-10))`. -/
noncomputable def calc_db (data : List ℝ) : ℝ :=
  20 * Real.logb 10 (max (rms data) (1 / 10 ^ 10))

/-! ## Theorems -/

lemma should_filter_event_iff (e : MIDIEvent) (solo_track : ℕ) :
    should_filter_event e solo_track = true ↔
      3 ≤ e.message.length ∧ e.message.headD 0 &&& 0xF0 = 0xB0 ∧
        e.message.getD 1 0 = 49 ∧ (e.message.headD 0 &&& 0x0F) + 1 ≠ solo_track := by
  unfold should_filter_event
  dsimp only
  split_ifs with h1 h2 h3 <;> simp_all

/-- Claim C1: during an isolation-pass replay with solo track `s`, an event of
the timeline is forwarded iff it is not a mute-CC (length ≥ 3, status high
nibble `0xB0`, controller 49) whose 1-indexed channel differs from `s`;
equivalently, exactly the mute-CCs of other tracks are suppressed and every
other event is forwarded. -/
theorem isolation_mute_filter_iff (events : List MIDIEvent) (solo_track : ℕ)
    (e : MIDIEvent) :
    e ∈ isolation_forwarded events solo_track ↔
      e ∈ events ∧
        ¬(3 ≤ e.message.length ∧ e.message.headD 0 &&& 0xF0 = 0xB0 ∧
          e.message.getD 1 0 = 49 ∧
          (e.message.headD 0 &&& 0x0F) + 1 ≠ solo_track) := by
  rw [isolation_forwarded, List.mem_filter]
  constructor
  · rintro ⟨hmem, hf⟩
    refine ⟨hmem, fun hc => ?_⟩
    rw [Bool.not_eq_true', ← Bool.not_eq_true] at hf
    exact hf ((should_filter_event_iff e solo_track).2 hc)
  · rintro ⟨hmem, hc⟩
    refine ⟨hmem, ?_⟩
    rw [Bool.not_eq_true', ← Bool.not_eq_true]
    intro hf
    exact hc ((should_filter_event_iff e solo_track).1 hf)

/-- Claim C5: for every channel offset and channel count, `_extract_stereo`
returns exactly as many frames as the input, every output frame has exactly
two channels, and the content follows the three branches of the code:
pass-through when both channels exist, duplication when only the first
exists, silence when neither exists.  The function is total: out-of-range
offsets yield silence, never an error. -/
theorem extract_stereo_shape (samples : List (List ℝ)) (channels offset : ℕ) :
    (extract_stereo samples channels offset).length = samples.length ∧
    (∀ frame ∈ extract_stereo samples channels offset, frame.length = 2) ∧
    (offset + 1 < channels →
      extract_stereo samples channels offset =
        samples.map (fun frame => [frame.getD offset 0, frame.getD (offset + 1) 0])) ∧
    (¬ offset + 1 < channels → offset < channels →
      extract_stereo samples channels offset =
        samples.map (fun frame => [frame.getD offset 0, frame.getD offset 0])) ∧
    (channels ≤ offset →
      extract_stereo samples channels offset =
        samples.map (fun _ => ([0, 0] : List ℝ))) := by
  unfold extract_stereo
  split_ifs with h1 h2 <;>
    refine ⟨by simp, ?_, ?_, ?_, ?_⟩ <;>
    simp_all <;> omega

/-- Claim C6: after the jam pass is stopped, `start_offset` is the captured
MIDI transport-start timestamp when one was captured (positive), otherwise
the audio-onset fallback; `content_duration` is `stop - start` when a
transport-stop after the start was captured, otherwise the total capture
duration minus `start_offset`, in which case
`start_offset + content_duration` equals the total duration exactly. -/
theorem stop_jam_timing (midi_start midi_stop total_duration sound_onset : ℚ) :
    ((0 < midi_start →
        (stop_jam_derive midi_start midi_stop total_duration sound_onset).1 =
          midi_start) ∧
      (¬ 0 < midi_start →
        (stop_jam_derive midi_start midi_stop total_duration sound_onset).1 =
          sound_onset)) ∧
    ((midi_start < midi_stop →
        (stop_jam_derive midi_start midi_stop total_duration sound_onset).2 =
          midi_stop - midi_start) ∧
      (¬ midi_start < midi_stop →
        (stop_jam_derive midi_start midi_stop total_duration sound_onset).2 =
            total_duration -
              (stop_jam_derive midi_start midi_stop total_duration sound_onset).1 ∧
          (stop_jam_derive midi_start midi_stop total_duration sound_onset).1 +
              (stop_jam_derive midi_start midi_stop total_duration sound_onset).2 =
            total_duration)) := by
  unfold stop_jam_derive
  split_ifs with h1 h2 <;> simp_all

/-- Claim C8: with no MIDI output port open, `start_playback` invokes the
completion callback exactly when one is provided, starts no playback thread
and sends no MIDI message (a no-op success), while `capture_stem` returns
`False` to its caller regardless of how the rest of the capture would have
gone. -/
theorem no_output_port_behaviour (has_on_complete audio_start_ok save_ok : Bool) :
    (start_playback false has_on_complete).complete_called = has_on_complete ∧
    (start_playback false has_on_complete).thread_started = false ∧
    (start_playback false has_on_complete).messages_sent = 0 ∧
    capture_stem false audio_start_ok save_ok = false := by
  refine ⟨rfl, rfl, rfl, rfl⟩

lemma track_activity_update_apply (activity : ℕ → Bool) (e : MIDIEvent)
    (t : ℕ) :
    track_activity_update activity e t = true ↔
      activity t = true ∨ (e.channel < 8 ∧ t = e.channel + 1) := by
  by_cases h1 : e.channel < 8 <;> by_cases h2 : t = e.channel + 1 <;>
    simp [track_activity_update, h1, h2]

lemma get_track_activity_foldl (events : List MIDIEvent) (acc : ℕ → Bool)
    (t : ℕ) :
    (events.foldl track_activity_update acc) t = true ↔
      acc t = true ∨ ∃ e ∈ events, e.channel < 8 ∧ t = e.channel + 1 := by
  induction events generalizing acc with
  | nil => simp
  | cons e rest ih =>
    rw [List.foldl_cons, ih, track_activity_update_apply]
    simp only [List.mem_cons, exists_eq_or_imp]
    tauto

/-- Claim C7 (amended): for tracks 1-8, track `t` is marked active iff some
recorded event's stored channel equals `t - 1`, where the callback stores
the status low nibble for channel messages and channel 0 for system
messages; hence system messages mark track 1 active, while channel messages
on channels 8-15 mark no track. -/
theorem track_activity_iff (msgs : List (ℚ × List ℕ)) (t : ℕ)
    (h1 : 1 ≤ t) (h8 : t ≤ 8) :
    get_track_activity (msgs.map (fun p => record_event p.1 p.2)) t = true ↔
      ∃ p ∈ msgs, callback_channel p.2 = t - 1 := by
  rw [get_track_activity, get_track_activity_foldl]
  simp only [Bool.false_eq_true, false_or, List.mem_map]
  constructor
  · rintro ⟨e, ⟨p, hp, rfl⟩, hlt, ht⟩
    refine ⟨p, hp, ?_⟩
    simp only [record_event] at hlt ht
    omega
  · rintro ⟨p, hp, hc⟩
    refine ⟨record_event p.1 p.2, ⟨p, hp, rfl⟩, ?_, ?_⟩ <;>
      simp only [record_event] <;> omega

/-- Witness for C7 at a concrete input: one note-on recorded on 0-indexed
channel 1 makes track 2 active. -/
theorem track_activity_iff_witness :
    get_track_activity
        ([((1 : ℚ), [0x91, 60, 100])].map (fun p => record_event p.1 p.2)) 2 =
        true ↔
      ∃ p ∈ [((1 : ℚ), [0x91, 60, 100])], callback_channel p.2 = 2 - 1 :=
  track_activity_iff [((1 : ℚ), [0x91, 60, 100])] 2 (by decide) (by decide)

/-- Counterexample to C7 as stated: a timeline holding a single transport
system message (status `0xFA`, not a channel message) marks track 1 active,
because the callback stores channel 0 for system messages. -/
theorem system_message_marks_track_one :
    get_track_activity [record_event 1 [0xFA]] 1 = true ∧ 0xF0 ≤ (0xFA : ℕ) := by
  constructor
  · decide
  · decide

/-- Claim C9: when the external stop flag is set while the replay loop runs,
the epilogue of `_playback_loop` still sends the device-stop trigger first,
and both the tail-time sleep and the stereo-duration matching sleep are
skipped. -/
theorem cancelled_pass_sends_stop (tail_time stereo_duration elapsed : ℚ)
    (sound_started has_on_complete isolated : Bool) :
    (playback_finish true tail_time stereo_duration sound_started elapsed
        has_on_complete isolated).head? = some PlayAction.send_ot_stop ∧
    PlayAction.sleep_tail ∉
      playback_finish true tail_time stereo_duration sound_started elapsed
        has_on_complete isolated ∧
    PlayAction.sleep_stereo ∉
      playback_finish true tail_time stereo_duration sound_started elapsed
        has_on_complete isolated := by
  unfold playback_finish
  split_ifs <;> simp_all

/-- Claim C10: when the pass is cancelled (stop flag set by the time the
epilogue runs), the completion callback is never invoked; in an uncancelled
pass (which presupposes an open output port, since otherwise the playback
thread never runs) with a completion callback provided, it is invoked
exactly once. -/
theorem completion_callback_invocation (tail_time stereo_duration elapsed : ℚ)
    (sound_started isolated has_on_complete : Bool) :
    PlayAction.call_complete ∉
      playback_finish true tail_time stereo_duration sound_started elapsed
        has_on_complete isolated ∧
    (playback_finish false tail_time stereo_duration sound_started elapsed
        true isolated).count PlayAction.call_complete = 1 := by
  unfold playback_finish
  constructor
  · split_ifs <;> simp_all
  · split_ifs <;> simp_all [List.count_append, List.count_cons]

lemma pc_lead_times_head_bound (lead_fraction prev_time : ℚ)
    (l : List (ℕ × ℚ)) :
    ∀ y ∈ ((pc_lead_times lead_fraction prev_time l).map Prod.snd).head?,
      prev_time + 1/10 ≤ y := by
  cases l with
  | nil => simp [pc_lead_times]
  | cons p rest =>
    obtain ⟨i, t⟩ := p
    intro y hy
    simp only [pc_lead_times, List.map_cons, List.head?_cons,
      Option.mem_def, Option.some.injEq] at hy
    rw [← hy]
    exact le_max_left _ _

lemma pc_lead_times_bounds_aux (l : List (ℕ × ℚ)) :
    ∀ prev_time : ℚ,
      List.Chain' (fun a b => a + 1/10 ≤ b) (prev_time :: l.map Prod.snd) →
      List.Forall₂ (fun adjusted original => adjusted ≤ original)
          ((pc_lead_times (1/5) prev_time l).map Prod.snd) (l.map Prod.snd) ∧
        List.Chain' (fun a b => a + 1/10 ≤ b)
          ((pc_lead_times (1/5) prev_time l).map Prod.snd) := by
  induction l with
  | nil => intro prev_time _; simp [pc_lead_times]
  | cons p rest ih =>
    intro prev_time hchain
    obtain ⟨i, t⟩ := p
    rw [List.map_cons, List.chain'_cons] at hchain
    obtain ⟨hpt, htail⟩ := hchain
    obtain ⟨ihF, ihC⟩ := ih t htail
    have hadj_le : max (prev_time + 1/10) (t - (t - prev_time) * (1/5)) ≤ t := by
      apply max_le hpt
      nlinarith
    constructor
    · simpa [pc_lead_times] using List.Forall₂.cons hadj_le ihF
    · simp only [pc_lead_times, List.map_cons]
      rw [List.chain'_cons']
      refine ⟨fun y hy => ?_, ihC⟩
      have hty := pc_lead_times_head_bound (1/5) t rest y hy
      linarith

/-- Claim C2 (amended): with lead fraction 0.2, each program-change's
adjusted send time is `max (prev + 0.1) (t - 0.2 * (t - prev))` where `prev`
is the previous program-change's ORIGINAL timestamp (0 for the first);
whenever consecutive program-changes are at least 0.1 s apart (the first at
least 0.1 s after time 0), every adjusted time is at most the event's
original timestamp and at least 0.1 s after the previous adjusted time. -/
theorem pc_lead_times_bounds (events : List MIDIEvent)
    (hgap : List.Chain' (fun a b => a + 1/10 ≤ b)
      (0 :: (pc_events events).map Prod.snd)) :
    List.Forall₂ (fun adjusted original => adjusted ≤ original)
        ((calculate_pc_lead_times events (1/5)).map Prod.snd)
        ((pc_events events).map Prod.snd) ∧
      List.Chain' (fun a b => a + 1/10 ≤ b)
        ((calculate_pc_lead_times events (1/5)).map Prod.snd) :=
  pc_lead_times_bounds_aux (pc_events events) 0 hgap

/-- Witness for C2 at a concrete timeline: program-changes at 1 s and 2 s
(0.1 s apart or more). -/
theorem pc_lead_times_bounds_witness :
    List.Forall₂ (fun adjusted original => adjusted ≤ original)
        ((calculate_pc_lead_times
            [⟨1, 0, [0xC0, 5]⟩, ⟨2, 1, [0xC0, 6]⟩] (1/5)).map Prod.snd)
        ((pc_events [⟨1, 0, [0xC0, 5]⟩, ⟨2, 1, [0xC0, 6]⟩]).map Prod.snd) ∧
      List.Chain' (fun a b => a + 1/10 ≤ b)
        ((calculate_pc_lead_times
            [⟨1, 0, [0xC0, 5]⟩, ⟨2, 1, [0xC0, 6]⟩] (1/5)).map Prod.snd) :=
  pc_lead_times_bounds [⟨1, 0, [0xC0, 5]⟩, ⟨2, 1, [0xC0, 6]⟩] (by
    rw [show (pc_events [⟨1, 0, [0xC0, 5]⟩, ⟨2, 1, [0xC0, 6]⟩]).map Prod.snd =
      [(1 : ℚ), 2] from rfl]
    simp only [List.chain'_cons, List.chain'_singleton, and_true]
    norm_num)

/-- Counterexample to C2 as stated: a single program-change recorded at
0.05 s gets adjusted send time `max (0 + 0.1) (0.05 - 0.2 * 0.05) = 0.1`,
which is strictly LATER than its original timestamp, refuting "the adjusted
send time is at most the event's original recorded timestamp". -/
theorem pc_lead_exceeds_original :
    (calculate_pc_lead_times [⟨1/20, 0, [0xC0, 5]⟩] (1/5)).map Prod.snd =
        [1/10] ∧
      ¬ ((1 : ℚ)/10 ≤ 1/20) := by
  constructor
  · rw [calculate_pc_lead_times,
      show pc_events [⟨1/20, 0, [0xC0, 5]⟩] = [(0, 1/20)] from rfl]
    simp only [pc_lead_times, List.map_cons, List.map_nil, List.cons.injEq,
      and_true]
    rw [max_eq_left (by norm_num)]
    norm_num
  · norm_num

lemma transport_update_of_final (s : TransportState) (e : MIDIEvent)
    (hstart : 0 < s.ot_start_offset) (hstop : s.ot_stop_time ≠ 0) :
    transport_update s e = s := by
  unfold transport_update
  dsimp only
  split_ifs with h1 h2 h3 h4 h5 h6 <;> simp_all

lemma foldl_transport_of_final (events : List MIDIEvent) (s : TransportState)
    (hstart : 0 < s.ot_start_offset) (hstop : s.ot_stop_time ≠ 0) :
    events.foldl transport_update s = s := by
  induction events with
  | nil => rfl
  | cons e rest ih =>
    rw [List.foldl_cons, transport_update_of_final s e hstart hstop, ih]

lemma foldl_transport_started (events : List MIDIEvent) :
    ∀ a : ℚ, 0 < a → (∀ e ∈ events, 0 < e.timestamp) →
      events.foldl transport_update
          { ot_start_offset := a, ot_stop_time := 0 } =
        { ot_start_offset := a,
          ot_stop_time :=
            ((events.find? is_stop_signal).map MIDIEvent.timestamp).getD 0 } := by
  induction events with
  | nil => intro a _ _; rfl
  | cons e rest ih =>
    intro a ha hpos
    by_cases hstop : is_stop_signal e
    · have hstep : transport_update
          { ot_start_offset := a, ot_stop_time := 0 } e =
          { ot_start_offset := a, ot_stop_time := e.timestamp } := by
        simp only [is_stop_signal, decide_eq_true_eq] at hstop
        unfold transport_update
        dsimp only
        split_ifs <;> simp_all
      rw [List.foldl_cons, hstep,
        foldl_transport_of_final rest _ ha
          (ne_of_gt (hpos e (List.mem_cons_self e rest))),
        List.find?_cons_of_pos rest hstop]
      rfl
    · have hstep : transport_update
          { ot_start_offset := a, ot_stop_time := 0 } e =
          { ot_start_offset := a, ot_stop_time := 0 } := by
        simp only [is_stop_signal, decide_eq_true_eq] at hstop
        unfold transport_update
        dsimp only
        split_ifs <;> simp_all
      rw [List.foldl_cons, hstep,
        ih a ha (fun e' he' => hpos e' (List.mem_cons_of_mem e he')),
        List.find?_cons_of_neg rest hstop]

lemma detect_transport_eq (events : List MIDIEvent)
    (hpos : ∀ e ∈ events, 0 < e.timestamp) :
    detect_transport events =
      { ot_start_offset :=
          ((events.find? is_start_signal).map MIDIEvent.timestamp).getD 0,
        ot_stop_time :=
          ((((events.dropWhile (fun e => !is_start_signal e)).drop 1).find?
              is_stop_signal).map MIDIEvent.timestamp).getD 0 } := by
  unfold detect_transport
  induction events with
  | nil => rfl
  | cons e rest ih =>
    by_cases hs : is_start_signal e
    · have hstep : transport_update
          { ot_start_offset := 0, ot_stop_time := 0 } e =
          { ot_start_offset := e.timestamp, ot_stop_time := 0 } := by
        simp only [is_start_signal, Bool.or_eq_true, decide_eq_true_eq] at hs
        unfold transport_update
        dsimp only
        rcases hs with h | h <;> split_ifs <;> simp_all <;>
          exact absurd h (by decide)
      rw [List.foldl_cons, hstep,
        foldl_transport_started rest e.timestamp
          (hpos e (List.mem_cons_self e rest))
          (fun e' he' => hpos e' (List.mem_cons_of_mem e he')),
        List.find?_cons_of_pos rest hs]
      have hdrop : (e :: rest).dropWhile (fun e => !is_start_signal e) =
          e :: rest := List.dropWhile_cons_of_neg (by simp [hs])
      rw [hdrop]
      rfl
    · have hstep : transport_update
          { ot_start_offset := 0, ot_stop_time := 0 } e =
          { ot_start_offset := 0, ot_stop_time := 0 } := by
        simp only [is_start_signal, Bool.or_eq_true, decide_eq_true_eq,
          not_or] at hs
        unfold transport_update
        dsimp only
        split_ifs <;> simp_all
      rw [List.foldl_cons, hstep,
        ih (fun e' he' => hpos e' (List.mem_cons_of_mem e he')),
        List.find?_cons_of_neg rest hs]
      have hdrop : (e :: rest).dropWhile (fun e => !is_start_signal e) =
          rest.dropWhile (fun e => !is_start_signal e) :=
        List.dropWhile_cons_of_pos (by simp [hs])
      rw [hdrop]

/-- Claim C3 (amended): with all recorded timestamps positive, the detected
device start is the timestamp of the FIRST event that is either a
transport-start (`0xFA`) or a note-on on ANY channel (status high nibble
`0x90`), whichever comes first (0 if none); the detected device stop is the
timestamp of the first transport-stop (`0xFC`) occurring strictly after
that start event (0 if none). -/
theorem detect_transport_characterisation (events : List MIDIEvent)
    (hpos : ∀ e ∈ events, 0 < e.timestamp) :
    (detect_transport events).ot_start_offset =
        ((events.find? is_start_signal).map MIDIEvent.timestamp).getD 0 ∧
      (detect_transport events).ot_stop_time =
        ((((events.dropWhile (fun e => !is_start_signal e)).drop 1).find?
            is_stop_signal).map MIDIEvent.timestamp).getD 0 := by
  rw [detect_transport_eq events hpos]
  exact ⟨rfl, rfl⟩

/-- Witness for C3 at a concrete timeline: transport-start at 1 s followed
by transport-stop at 5 s. -/
theorem detect_transport_characterisation_witness :
    (detect_transport [⟨1, 0, [0xFA]⟩, ⟨5, 0, [0xFC]⟩]).ot_start_offset =
        (([(⟨1, 0, [0xFA]⟩ : MIDIEvent), ⟨5, 0, [0xFC]⟩].find?
            is_start_signal).map MIDIEvent.timestamp).getD 0 ∧
      (detect_transport [⟨1, 0, [0xFA]⟩, ⟨5, 0, [0xFC]⟩]).ot_stop_time =
        (((([(⟨1, 0, [0xFA]⟩ : MIDIEvent), ⟨5, 0, [0xFC]⟩].dropWhile
              (fun e => !is_start_signal e)).drop 1).find?
            is_stop_signal).map MIDIEvent.timestamp).getD 0 :=
  detect_transport_characterisation [⟨1, 0, [0xFA]⟩, ⟨5, 0, [0xFC]⟩] (by
    intro e he
    simp only [List.mem_cons, List.not_mem_nil, or_false] at he
    rcases he with rfl | rfl <;> norm_num)

/-- Counterexample to C3 as stated: a timeline whose only event is a
note-on with status byte `0x91` — a note-on on 0-indexed channel 1, i.e.
NOT channel 1 in 1-indexed terms — is still used as the fallback start
indicator, refuting "a note-on message on channel 1 (and only channel 1) is
used as the fallback start indicator". -/
theorem note_on_any_channel_fallback :
    (detect_transport [⟨2, 1, [0x91, 60, 100]⟩]).ot_start_offset = 2 ∧
      (0x91 : ℕ) &&& 0x0F ≠ 0 := by
  constructor
  · rfl
  · decide

lemma rms_le_one (l : List ℝ) (h : ∀ x ∈ l, |x| ≤ 1) : rms l ≤ 1 := by
  rcases Nat.eq_zero_or_pos l.length with h0 | hlen
  · rw [List.length_eq_zero.mp h0]
    simp [rms]
  · have hsum : (l.map (fun x => x ^ 2)).sum ≤
        (l.map (fun x => x ^ 2)).length • (1 : ℝ) := by
      apply List.sum_le_card_nsmul
      intro y hy
      simp only [List.mem_map] at hy
      obtain ⟨x, hx, rfl⟩ := hy
      calc x ^ 2 = |x| ^ 2 := (sq_abs x).symm
        _ ≤ (1 : ℝ) ^ 2 := pow_le_pow_left₀ (abs_nonneg x) (h x hx) 2
        _ = 1 := one_pow 2
    rw [List.length_map, nsmul_eq_mul, mul_one] at hsum
    have hpos : (0 : ℝ) < l.length := by exact_mod_cast hlen
    have hdiv : (l.map (fun x => x ^ 2)).sum / (l.length : ℝ) ≤ 1 :=
      (div_le_one hpos).mpr hsum
    calc rms l ≤ Real.sqrt 1 := Real.sqrt_le_sqrt hdiv
      _ = 1 := Real.sqrt_one

lemma calc_db_mono (l₁ l₂ : List ℝ) (h : rms l₁ ≤ rms l₂) :
    calc_db l₁ ≤ calc_db l₂ := by
  unfold calc_db
  apply mul_le_mul_of_nonneg_left _ (by norm_num : (0 : ℝ) ≤ 20)
  apply Real.logb_le_logb_of_le (by norm_num : (1 : ℝ) < 10)
  · exact lt_of_lt_of_le (by norm_num) (le_max_right (rms l₁) (1 / 10 ^ 10))
  · exact max_le_max h le_rfl

lemma logb_ten_floor : Real.logb 10 ((1 : ℝ) / 10 ^ 10) = -10 := by
  rw [one_div, Real.logb_inv, Real.logb_pow,
    Real.logb_self_eq_one (by norm_num)]
  norm_num

lemma rms_replicate_zero (n : ℕ) : rms (List.replicate n 0) = 0 := by
  unfold rms
  have hmap : (List.replicate n (0 : ℝ)).map (fun x => x ^ 2) =
      List.replicate n 0 := by
    simp
  rw [hmap, List.sum_replicate, smul_zero, zero_div, Real.sqrt_zero]

lemma calc_db_replicate_zero (n : ℕ) :
    calc_db (List.replicate n 0) = -200 := by
  unfold calc_db
  rw [rms_replicate_zero, max_eq_right (by norm_num), logb_ten_floor]
  norm_num

/-- Claim C4 (amended): the level computation `20·log10(max(rms, 1e-10))`
is monotonically non-decreasing in the block's RMS, and for blocks of
amplitudes in [-1, 1] its result lies in [-200, 0] dB; an all-zero block
yields exactly -200 dB (the floor imposed by the `1e-10` clamp), never
-infinity or NaN. -/
theorem calc_db_properties :
    (∀ l₁ l₂ : List ℝ, rms l₁ ≤ rms l₂ → calc_db l₁ ≤ calc_db l₂) ∧
      (∀ l : List ℝ, (∀ x ∈ l, |x| ≤ 1) →
        -200 ≤ calc_db l ∧ calc_db l ≤ 0) ∧
      ∀ n : ℕ, calc_db (List.replicate n 0) = -200 := by
  refine ⟨calc_db_mono, fun l hl => ⟨?_, ?_⟩, calc_db_replicate_zero⟩
  · have hlog : Real.logb 10 ((1 : ℝ) / 10 ^ 10) ≤
        Real.logb 10 (max (rms l) (1 / 10 ^ 10)) := by
      apply Real.logb_le_logb_of_le (by norm_num : (1 : ℝ) < 10)
        (by norm_num)
      exact le_max_right (rms l) (1 / 10 ^ 10)
    rw [logb_ten_floor] at hlog
    unfold calc_db
    linarith
  · have hmax : max (rms l) ((1 : ℝ) / 10 ^ 10) ≤ 1 :=
      max_le (rms_le_one l hl) (by norm_num)
    have hlog : Real.logb 10 (max (rms l) ((1 : ℝ) / 10 ^ 10)) ≤ 0 :=
      Real.logb_nonpos (by norm_num)
        (le_max_of_le_right (by norm_num)) hmax
    unfold calc_db
    linarith

/-- Counterexample to C4 as stated: the all-zero block `[0]` yields exactly
-200 dB, not -60 dB, so the result of the level computation does NOT lie in
[-60, 0] and silence is NOT mapped to -60 dB: the `1e-10` clamp puts the
floor at `20·log10(1e-10) = -200`. -/
theorem calc_db_zero_below_floor :
    calc_db [0] = -200 ∧ ¬ ((-60 : ℝ) ≤ calc_db [0]) := by
  have h : calc_db [0] = -200 := by
    have h1 := calc_db_replicate_zero 1
    rwa [List.replicate_one] at h1
  exact ⟨h, by rw [h]; norm_num⟩

end OTStemCapture
